import Mathlib

/-!
Verification development for the `clevo-fan` utility (Rust sources under
`src/`).  The Rust code is shallowly embedded: `f64` values are modelled by
the type `F` below (an exact-rational idealisation of IEEE doubles that keeps
the NaN element and its comparison semantics, drops rounding, overflow and
the infinities; the only division by zero the program can perform is
`0.0 / 0.0`, which IEEE — and this model — sends to NaN), machine integers by
`Nat` with explicit bounds where they matter, fallible operations by
`Except`/`Option` (a Rust panic is `Option.none`), and port I/O by explicit
read streams and write traces.
-/

namespace ClevoFan

/-- Model of Rust `f64`: either a finite value (an exact rational — rounding
of IEEE arithmetic is idealised away; every constant appearing in the program
is exactly representable) or NaN.  Infinities are not modelled; they are
unreachable in the fragments embedded here. -/
inductive F where
  | fin (q : ℚ)
  | nan
deriving DecidableEq

namespace F

/-- Addition on `f64`: NaN propagates. -/
def add : F → F → F
  | fin a, fin b => fin (a + b)
  | _, _ => nan

/-- Subtraction on `f64`: NaN propagates. -/
def sub : F → F → F
  | fin a, fin b => fin (a - b)
  | _, _ => nan

/-- Multiplication on `f64`: NaN propagates. -/
def mul : F → F → F
  | fin a, fin b => fin (a * b)
  | _, _ => nan

/-- Division on `f64`: NaN propagates; division by zero yields NaN (the program
only ever divides zero by zero, where this matches IEEE `0.0/0.0 = NaN`). -/
def div : F → F → F
  | fin a, fin b => if b = 0 then nan else fin (a / b)
  | _, _ => nan

/-- Strict comparison `<` on `f64`: any comparison involving NaN is false. -/
def flt : F → F → Bool
  | fin a, fin b => a < b
  | _, _ => false

/-- Comparison `<=` on `f64`: any comparison involving NaN is false. -/
def fle : F → F → Bool
  | fin a, fin b => a ≤ b
  | _, _ => false

/-- Rust `as u8` cast from `f64` (saturating: NaN goes to 0, values below 0
to 0, values above 255 to 255, everything else truncated toward zero). -/
def toU8 : F → ℕ
  | nan => 0
  | fin q => if q < 0 then 0 else min 255 (Int.toNat ⌊q⌋)

/-- Value of `f64::MAX`, the exact rational `(2^53 - 1) * 2^971`. -/
def f64Max : ℚ := (2 ^ 53 - 1) * 2 ^ 971

end F

/-! ## `src/utils.rs`: `Temperature` -/

/-- Type `Temperature` (`src/utils.rs`) carries one `f64` field
`degrees_celsius`; we represent it by that field directly. -/
abbrev Temperature := F

namespace Temperature

/-- Function `Temperature::from_degrees_celsius` (`src/utils.rs`): `u8 as f64`,
exact. -/
def from_degrees_celsius (b : ℕ) : Temperature := F.fin b

/-- Function `Temperature::as_degrees_celsius` (`src/utils.rs`): `f64 as u8`,
Rust saturating cast. -/
def as_degrees_celsius (t : Temperature) : ℕ := F.toU8 t

/-- Constant `Temperature::max` (`src/utils.rs`): `f64::MAX` degrees. -/
def max : Temperature := F.fin F.f64Max

end Temperature

/-- Fixed-point formatting of a rational with one fractional digit, the
meaning of Rust's format spec used for temperatures.  Rust rounds ties to
even; `round` here rounds ties up — the two agree off ties and everywhere
this development evaluates the function. -/
def fmtFixed1 (q : ℚ) : String :=
  let n : ℤ := round (q * 10)
  if n < 0 then
    "-" ++ toString ((-n).toNat / 10) ++ "." ++ toString ((-n).toNat % 10)
  else
    toString (n.toNat / 10) ++ "." ++ toString (n.toNat % 10)

/-- Embedding of `impl fmt::Display for Temperature` (`src/utils.rs`): the degrees with
one fractional digit, followed by the unit suffix unless the alternate flag
(`{:#}`) is set. -/
def Temperature.display (t : Temperature) (alternate : Bool) : String :=
  (match t with
   | F.fin q => fmtFixed1 q
   | F.nan => "NaN") ++ (if alternate then "" else "°C")

/-! ## `src/fan.rs`: `Duty` and `Speed` -/

/-- Error type `ParsePercentageError` (`src/fan.rs`).  `parseFloat` stands for the
`ParseFloat(_)` variant (payload irrelevant here). -/
inductive ParsePercentageError where
  | TooBig
  | Negative
  | parseFloat
deriving DecidableEq

/-- A `Duty` is its single `f64` field `ratio`. -/
abbrev Duty := F

namespace Duty

/-- Function `Duty::from_point_in_range` (`src/fan.rs`):
`(point - start) / (end - start)` over `f64`, the range ends being `u8`s. -/
def from_point_in_range (point lo hi : ℕ) : Duty :=
  F.div (F.sub (F.fin point) (F.fin lo)) (F.sub (F.fin hi) (F.fin lo))

/-- Function `Duty::to_point_in_range` (`src/fan.rs`):
`(ratio * (end - start) + start) as u8`. -/
def to_point_in_range (d : Duty) (lo hi : ℕ) : ℕ :=
  F.toU8 (F.add (F.mul d (F.sub (F.fin hi) (F.fin lo))) (F.fin lo))

/-- Function `Duty::from_percentage` (`src/fan.rs`): reject `percentage > 100.` as
`TooBig`, then `percentage < 0.` as `Negative`, otherwise accept with
`ratio = percentage / 100.`. -/
def from_percentage (percentage : F) : Except ParsePercentageError Duty :=
  if F.flt (F.fin 100) percentage then
    .error ParsePercentageError.TooBig
  else if F.flt percentage (F.fin 0) then
    .error ParsePercentageError.Negative
  else
    .ok (F.div percentage (F.fin 100))

/-- Function `Duty::from_saturating_percentage` (`src/fan.rs`): `TooBig` saturates to
ratio 1, `Negative` to ratio 0.  The `ParseFloat` arm is `unreachable!()` in
the source (see `from_percentage_no_parseFloat`); it is mapped to NaN
here. -/
def from_saturating_percentage (percentage : F) : Duty :=
  match from_percentage percentage with
  | .ok d => d
  | .error ParsePercentageError.TooBig => F.fin 1
  | .error ParsePercentageError.Negative => F.fin 0
  | .error ParsePercentageError.parseFloat => F.nan

end Duty

/-- Function `Speed::from_raw_ec_bytes` (`src/fan.rs`): the raw tachometer period is
`((hi as u16) << 8) + lo`; the rpm is `2156220 / raw` (integer division)
when `raw > 0`, else `raw` itself (i.e. 0).  Arguments are byte values. -/
def Speed.from_raw_ec_bytes (lo hi : ℕ) : ℕ :=
  let MAGIC : ℕ := 2156220
  let raw : ℕ := (hi <<< 8) + lo
  if raw > 0 then MAGIC / raw else raw

/-! ## `src/ec.rs`: `Registers` -/

/-- Struct `Registers` (`src/ec.rs`): the decoded snapshot. -/
structure Registers where
  cpu_temp : Temperature
  gpu_temp : Temperature
  fan_duty : Duty
  fan_speed : ℕ

/-- Embedding of `impl From<&[u8]> for Registers` (`src/ec.rs`): fixed offsets into the
256-byte EC register block (0x07 cpu temp, 0xCD gpu temp, 0xCE duty point,
0xD0/0xD1 tachometer hi/lo). -/
def Registers.decode (buf : Fin 256 → ℕ) : Registers :=
  { cpu_temp := Temperature.from_degrees_celsius (buf ⟨0x07, by decide⟩)
    gpu_temp := Temperature.from_degrees_celsius (buf ⟨0xCD, by decide⟩)
    fan_duty := Duty.from_point_in_range (buf ⟨0xCE, by decide⟩) 0 255
    fan_speed := Speed.from_raw_ec_bytes (buf ⟨0xD1, by decide⟩) (buf ⟨0xD0, by decide⟩) }

/-! ## `src/ec.rs`: `ECPort` -/

/-- Error type `PortIOError` (`src/ec.rs`): the unit-like timeout/IO error. -/
inductive PortIOError where
  | mk
deriving DecidableEq

namespace ECPort

/-- Constant `MAX_QUERIES` (`src/ec.rs`). -/
def MAX_QUERIES : ℕ := 100

/-- Constant `QUERY_INTERVAL` (`src/ec.rs`), in microseconds (1 ms). -/
def QUERY_INTERVAL_MICROS : ℕ := 1000

/-- The bit extraction `(data >> flag) & 1` tested by `ECPort::wait`. -/
def bitOf (data flag : ℕ) : ℕ := (data >>> flag) &&& 1

/-- Function `ECPort::wait` (`src/ec.rs`).  The port is modelled by the stream
`reads` of successive values its register would deliver; the source takes
`MAX_QUERIES` reads, skips while the selected bit differs from `value`, and
succeeds iff an element remains. -/
def wait (reads : ℕ → ℕ) (flag value : ℕ) : Except PortIOError Unit :=
  let samples := (List.range MAX_QUERIES).map reads
  let remaining := samples.dropWhile (fun data => bitOf data flag != value)
  if remaining.isEmpty then .error PortIOError.mk else .ok ()

/-- How many port reads `ECPort::wait` actually performs: the iterator is
lazy, so reads stop right after the first matching sample (and after
`MAX_QUERIES` reads when none matches). -/
def readsPerformed (reads : ℕ → ℕ) (flag value : ℕ) : ℕ :=
  let samples := (List.range MAX_QUERIES).map reads
  min MAX_QUERIES ((samples.takeWhile (fun data => bitOf data flag != value)).length + 1)

end ECPort

/-! ## `src/fan.rs`: `Control` -/

/-- Constant `IBF` (`src/fan.rs`): index of the input-buffer-full status bit. -/
def IBF : ℕ := 1

/-- Constant `EC_FAN_CONTROL_CMD` (`src/fan.rs`). -/
def EC_FAN_CONTROL_CMD : ℕ := 0x99

/-- Constant `EC_FAN_CONTROL_PORT` (`src/fan.rs`). -/
def EC_FAN_CONTROL_PORT : ℕ := 0x1

/-- The two hardware ports owned by `Control` (`src/fan.rs`):
status/command (0x66) and data (0x62). -/
inductive ECPortId where
  | sc
  | data
deriving DecidableEq

namespace Control

/-- Result of one `Control::write` (`src/fan.rs`): the sequence of port
writes actually performed, in order, and the overall outcome. -/
structure WriteTrace where
  writes : List (ECPortId × ℕ)
  result : Except PortIOError Unit

/-- Function `Control::write` (`src/fan.rs`).  `scReads k` is the stream of
status-port values observed by the `k`-th `wait` call (`k = 0,1,2,3`).  Each
payload write is gated by a successful `wait(IBF, 0)`; a timeout aborts the
sequence at that point, keeping the writes already performed. -/
def write (scReads : ℕ → ℕ → ℕ) (cmd port value : ℕ) : WriteTrace :=
  match ECPort.wait (scReads 0) IBF 0 with
  | .error e => ⟨[], .error e⟩
  | .ok () =>
    match ECPort.wait (scReads 1) IBF 0 with
    | .error e => ⟨[(ECPortId.sc, cmd)], .error e⟩
    | .ok () =>
      match ECPort.wait (scReads 2) IBF 0 with
      | .error e => ⟨[(ECPortId.sc, cmd), (ECPortId.data, port)], .error e⟩
      | .ok () =>
        match ECPort.wait (scReads 3) IBF 0 with
        | .error e =>
            ⟨[(ECPortId.sc, cmd), (ECPortId.data, port), (ECPortId.data, value)], .error e⟩
        | .ok () =>
            ⟨[(ECPortId.sc, cmd), (ECPortId.data, port), (ECPortId.data, value)], .ok ()⟩

/-- Function `Control::set_duty` (`src/fan.rs`). -/
def set_duty (scReads : ℕ → ℕ → ℕ) (duty : Duty) : WriteTrace :=
  write scReads EC_FAN_CONTROL_CMD EC_FAN_CONTROL_PORT (duty.to_point_in_range 0 255)

end Control

/-! ## `src/utils.rs`: smoothing filters

Both iterator adaptors keep a FIFO window `buf`: push the new sample at the
back, pop the front when the length exceeds `window_size`.  `windowPush` is
that shared maintenance step; `windowList` is its closed form. -/

/-- Window maintenance shared by `MovingAverage::next` and
`MovingMedian::next` (`src/utils.rs`): `push_back`, then `pop_front` if the
length exceeds the window size. -/
def windowPush {α : Type} (w : ℕ) (buf : List α) (v : α) : List α :=
  let pushed := buf ++ [v]
  if w < pushed.length then pushed.drop 1 else pushed

/-- The window contents after samples `stream 0 .. stream n` have been
pushed: the most recent `min (n+1) w` samples. -/
def windowList {α : Type} (w : ℕ) (stream : ℕ → α) (n : ℕ) : List α :=
  ((List.range (n + 1)).map stream).drop (n + 1 - w)

/-- The sort order `MovingMedian::next` (`src/utils.rs`) hands to `sort_by`:
`a.partial_cmp(b).unwrap_or(Less)`, i.e. ordinary order on comparable
values and "Less" whenever the comparison is undefined.  For Temperature
(`f64`) this yields the order below; the filter itself is generic, so the
embedding is parametrised by the order. -/
def medianLe : F → F → Bool
  | F.fin a, F.fin b => a ≤ b
  | _, _ => true

/-- Relation form of `medianLe`, for use with `List.insertionSort`. -/
def medianR (a b : F) : Prop := medianLe a b = true

instance : DecidableRel medianR :=
  fun a b => inferInstanceAs (Decidable (medianLe a b = true))

namespace MovingMedian

/-- Body of `MovingMedian::next` (`src/utils.rs`): maintain the window, sort
a copy by the comparator, take the element removed at index `len / 2`.
Rust's stable comparison sort is modelled by `List.insertionSort`, which
agrees with it whenever the comparator is a total preorder — the case in
every run this development evaluates.  `Vec::remove` panics on an
out-of-bounds index, hence the `Option`. -/
def step {α : Type} (r : α → α → Prop) [DecidableRel r] (w : ℕ) (buf : List α) (v : α) :
    List α × Option α :=
  let kept := windowPush w buf v
  let sorted := List.insertionSort r kept
  (kept, sorted[sorted.length / 2]?)

/-- The filter run on the first `n+1` elements of `stream`: final buffer and
`n`-th emitted value. -/
def run {α : Type} (r : α → α → Prop) [DecidableRel r] (w : ℕ) (stream : ℕ → α) :
    ℕ → List α × Option α
  | 0 => step r w [] (stream 0)
  | n + 1 => step r w (run r w stream n).1 (stream (n + 1))

end MovingMedian

/-- Embedding of `impl Sum for Temperature` (`src/utils.rs`): fold `f64` addition over
the window, starting from zero. -/
def sumTemps (l : List F) : F := l.foldl F.add (F.fin 0)

namespace MovingAverage

/-- Body of `MovingAverage::next` (`src/utils.rs`): maintain the window,
emit `sum / len` (`impl Div<usize> for Temperature` divides the degrees by
the length cast to `f64`; with an empty window this is `0.0 / 0.0`,
i.e. NaN). -/
def step (w : ℕ) (buf : List F) (v : F) : List F × F :=
  let kept := windowPush w buf v
  (kept, F.div (sumTemps kept) (F.fin kept.length))

/-- The filter run on the first `n+1` elements of `stream`. -/
def run (w : ℕ) (stream : ℕ → F) : ℕ → List F × F
  | 0 => step w [] (stream 0)
  | n + 1 => step w (run w stream n).1 (stream (n + 1))

end MovingAverage

/-! ## `src/fan/policy.rs`: the linear policy -/

namespace Linear

/-- Embedding of `impl FanPolicy for Linear` (`src/fan/policy.rs`):
`from_saturating_percentage(offset + temp.as_degrees_celsius() as f64 * slope)`.
Note the temperature is first cast to a `u8`. -/
def next_fan_duty (slope offset : F) (temp : Temperature) : Duty :=
  Duty.from_saturating_percentage
    (F.add offset (F.mul (F.fin (Temperature.as_degrees_celsius temp)) slope))

/-- The linear policy as the SPEC's words describe it (§4.5:
`duty = offset + slope * temp_celsius`, saturated into the duty range) —
for comparison with `next_fan_duty`, which is translated from the source. -/
def specDuty (slope offset : F) (temp : Temperature) : Duty :=
  Duty.from_saturating_percentage (F.add offset (F.mul temp slope))

end Linear

/-! ## `src/main.rs`: the `auto` control loop

One cycle of the `Auto` arm: seek + read the 256-byte block (may fail),
decode the cpu temperature or substitute `Temperature::max()` on failure,
normalize through the configured filter, apply the policy, try to write the
duty (a handshake failure only skips this cycle's write), sleep.  The
environment supplies per-cycle outcomes: what the telemetry read returned
and whether the duty write's handshake succeeded. -/

/-- The externally determined events of one loop cycle: the telemetry block
the read delivered (`none` = I/O error) and whether the EC handshake for the
duty write succeeded. -/
structure CycleEnv where
  readResult : Option (Fin 256 → ℕ)
  writeOk : Bool

namespace AutoLoop

/-- Element `n` of `temp_curve` (`src/main.rs`): the decoded cpu
temperature, or `Temperature::max()` when the read failed
(`unwrap_or_else(.. Temperature::max())`). -/
def tempSample (envs : ℕ → CycleEnv) (n : ℕ) : Temperature :=
  match (envs n).readResult with
  | some buf => (Registers.decode buf).cpu_temp
  | none => Temperature.max

/-- The duty computed in cycle `n`: the policy applied to the normalized
temperature curve (`normalize` is the configured smoothing stage —
pass-through, moving average, or moving median). -/
def dutyAt (policy : Temperature → Duty) (normalize : (ℕ → Temperature) → ℕ → Temperature)
    (envs : ℕ → CycleEnv) (n : ℕ) : Duty :=
  policy (normalize (tempSample envs) n)

/-- The duty actually applied in cycle `n`: `none` when `set_duty` failed
(the error is printed and `ignore`d, the cycle's write is skipped). -/
def appliedAt (policy : Temperature → Duty) (normalize : (ℕ → Temperature) → ℕ → Temperature)
    (envs : ℕ → CycleEnv) (n : ℕ) : Option Duty :=
  if (envs n).writeOk then some (dutyAt policy normalize envs n) else none

end AutoLoop

/-- Concrete 256-byte register block whose byte at offset 0x07 is 45 and
whose other bytes are zero. -/
def testBlock45 : Fin 256 → ℕ := fun i => if i.val = 7 then 45 else 0

/-!  ## Helper lemmas -/

/-- Pushing the `(n+1)`-th sample onto the window holding the first `n+1`
samples yields the window of the first `n+2` samples. -/
theorem windowPush_windowList {α : Type} (w : ℕ) (stream : ℕ → α) (n : ℕ) :
    windowPush w (windowList w stream n) (stream (n + 1)) = windowList w stream (n + 1) := by
  simp only [windowPush, windowList]
  have hlen : ((List.range (n + 1)).map stream).length = n + 1 := by simp
  have hd : n + 1 - w ≤ ((List.range (n + 1)).map stream).length := by omega
  rw [← List.drop_append_of_le_length hd]
  have hL : (List.range (n + 1)).map stream ++ [stream (n + 1)]
      = (List.range (n + 1 + 1)).map stream := by
    rw [show List.range (n + 1 + 1) = List.range (n + 1) ++ [n + 1] from List.range_succ _,
      List.map_append]
    rfl
  rw [hL]
  have hlen2 : ((List.range (n + 1 + 1)).map stream).length = n + 2 := by simp
  simp only [List.length_drop, hlen2]
  split_ifs with h
  · rw [List.drop_drop]
    congr 1
    omega
  · congr 1
    omega

/-- The window after the very first sample. -/
theorem windowPush_nil {α : Type} (w : ℕ) (stream : ℕ → α) :
    windowPush w [] (stream 0) = windowList w stream 0 := by
  unfold windowPush windowList
  have h1 : List.range 1 = [0] := rfl
  rw [h1]
  rcases w with _ | w
  · simp
  · simp

/-- Length of the window: the most recent `min (n+1) w` samples. -/
theorem windowList_length {α : Type} (w : ℕ) (stream : ℕ → α) (n : ℕ) :
    (windowList w stream n).length = min (n + 1) w := by
  unfold windowList
  simp only [List.length_drop, List.length_map, List.length_range]
  omega

/-- The window construction commutes with mapping a function over the
stream. -/
theorem windowList_map (w : ℕ) (qs : ℕ → ℚ) (n : ℕ) :
    windowList w (fun k => F.fin (qs k)) n = (windowList w qs n).map F.fin := by
  unfold windowList
  rw [List.map_drop, List.map_map]
  rfl

/-- The moving-median buffer is exactly the trailing window. -/
theorem MovingMedian.median_run_fst {α : Type} (r : α → α → Prop) [DecidableRel r]
    (w : ℕ) (stream : ℕ → α) (n : ℕ) :
    (MovingMedian.run r w stream n).1 = windowList w stream n := by
  induction n with
  | zero => exact windowPush_nil w stream
  | succ n ih =>
      show windowPush w (MovingMedian.run r w stream n).1 (stream (n + 1)) = _
      rw [ih, windowPush_windowList]

/-- The moving-median output: the element at index `len / 2` of the sorted
trailing window. -/
theorem MovingMedian.median_run_snd {α : Type} (r : α → α → Prop) [DecidableRel r]
    (w : ℕ) (stream : ℕ → α) (n : ℕ) :
    (MovingMedian.run r w stream n).2 =
      (List.insertionSort r (windowList w stream n))[(List.insertionSort r (windowList w stream n)).length / 2]? := by
  rcases n with _ | n
  · show (MovingMedian.step r w [] (stream 0)).2 = _
    unfold MovingMedian.step
    rw [windowPush_nil]
  · show (MovingMedian.step r w (MovingMedian.run r w stream n).1 (stream (n + 1))).2 = _
    unfold MovingMedian.step
    rw [MovingMedian.median_run_fst, windowPush_windowList]

/-- The moving-average buffer is exactly the trailing window. -/
theorem MovingAverage.average_run_fst (w : ℕ) (stream : ℕ → F) (n : ℕ) :
    (MovingAverage.run w stream n).1 = windowList w stream n := by
  induction n with
  | zero => exact windowPush_nil w stream
  | succ n ih =>
      show windowPush w (MovingAverage.run w stream n).1 (stream (n + 1)) = _
      rw [ih, windowPush_windowList]

/-- The moving-average output: the window sum divided by the window
length. -/
theorem MovingAverage.average_run_snd (w : ℕ) (stream : ℕ → F) (n : ℕ) :
    (MovingAverage.run w stream n).2 =
      F.div (sumTemps (windowList w stream n)) (F.fin (windowList w stream n).length) := by
  rcases n with _ | n
  · show (MovingAverage.step w [] (stream 0)).2 = _
    unfold MovingAverage.step
    rw [windowPush_nil]
  · show (MovingAverage.step w (MovingAverage.run w stream n).1 (stream (n + 1))).2 = _
    unfold MovingAverage.step
    rw [MovingAverage.average_run_fst, windowPush_windowList]

/-- Summing a window of finite temperatures yields a finite value. -/
theorem sumTemps_map_fin (l : List ℚ) :
    sumTemps (l.map F.fin) = F.fin (l.foldl (· + ·) 0) := by
  show (l.map F.fin).foldl F.add (F.fin 0) = F.fin (l.foldl (· + ·) 0)
  generalize (0 : ℚ) = q0
  induction l generalizing q0 with
  | nil => rfl
  | cons x xs ih => exact ih (q0 + x)

/-- Lemma: `Duty::from_saturating_percentage` on a finite percentage always yields
a finite ratio in `[0, 1]`. -/
theorem from_saturating_percentage_bounds (q : ℚ) :
    ∃ r : ℚ, Duty.from_saturating_percentage (F.fin q) = F.fin r ∧ 0 ≤ r ∧ r ≤ 1 := by
  unfold Duty.from_saturating_percentage Duty.from_percentage
  by_cases h1 : F.flt (F.fin 100) (F.fin q) = true
  · refine ⟨1, ?_⟩
    rw [if_pos h1]
    norm_num
  · rw [if_neg h1]
    by_cases h2 : F.flt (F.fin q) (F.fin 0) = true
    · refine ⟨0, ?_⟩
      rw [if_pos h2]
      norm_num
    · rw [if_neg h2]
      have hq100 : ¬ (100 : ℚ) < q := by
        simpa [F.flt] using h1
      have hq0 : ¬ q < (0 : ℚ) := by
        simpa [F.flt] using h2
      refine ⟨q / 100, ?_, ?_, ?_⟩
      · show F.div (F.fin q) (F.fin 100) = F.fin (q / 100)
        unfold F.div
        norm_num
      · exact div_nonneg (by linarith) (by norm_num)
      · rw [div_le_one (by norm_num : (0:ℚ) < 100)]
        linarith

/-- Lemma: `Duty::from_percentage` never produces the `ParseFloat` variant (the
matching arm in `from_saturating_percentage` is `unreachable!()` in the
source). -/
theorem from_percentage_no_parseFloat (p : F) :
    Duty.from_percentage p ≠ .error ParsePercentageError.parseFloat := by
  unfold Duty.from_percentage
  split_ifs <;> simp

/-- Casting a byte-sized natural into the float model and back is the
identity. -/
theorem toU8_natCast (m : ℕ) (hm : m ≤ 255) : F.toU8 (F.fin m) = m := by
  show (if (m : ℚ) < 0 then 0 else min 255 (Int.toNat ⌊(m : ℚ)⌋)) = m
  rw [if_neg (not_lt.mpr (Nat.cast_nonneg m)), Int.floor_natCast, Int.toNat_natCast]
  exact min_eq_right hm

/-- Lemma: `Duty::from_percentage` accepts an in-range percentage. -/
theorem from_percentage_ok (q : ℚ) (h0 : 0 ≤ q) (h100 : q ≤ 100) :
    Duty.from_percentage (F.fin q) = .ok (F.fin (q / 100)) := by
  have hc1 : ¬ (F.flt (F.fin 100) (F.fin q) = true) := by
    simp only [F.flt, decide_eq_true_eq]
    exact not_lt.mpr h100
  have hc2 : ¬ (F.flt (F.fin q) (F.fin 0) = true) := by
    simp only [F.flt, decide_eq_true_eq]
    exact not_lt.mpr h0
  unfold Duty.from_percentage
  rw [if_neg hc1, if_neg hc2]
  show Except.ok (if (100 : ℚ) = 0 then F.nan else F.fin (q / 100)) = _
  rw [if_neg (by norm_num)]

/-- Lemma: `Duty::from_saturating_percentage` on an in-range percentage. -/
theorem from_saturating_val (q : ℚ) (h0 : 0 ≤ q) (h100 : q ≤ 100) :
    Duty.from_saturating_percentage (F.fin q) = F.fin (q / 100) := by
  unfold Duty.from_saturating_percentage
  rw [from_percentage_ok q h0 h100]

/-- Lemma: `Duty::from_saturating_percentage` clamps percentages above 100 to
ratio 1. -/
theorem from_saturating_high (q : ℚ) (h : 100 < q) :
    Duty.from_saturating_percentage (F.fin q) = F.fin 1 := by
  have hc1 : F.flt (F.fin 100) (F.fin q) = true := by
    simp only [F.flt, decide_eq_true_eq]
    exact h
  unfold Duty.from_saturating_percentage Duty.from_percentage
  rw [if_pos hc1]

/-- Lemma: `Duty::from_saturating_percentage` clamps negative percentages to
ratio 0. -/
theorem from_saturating_low (q : ℚ) (h : q < 0) :
    Duty.from_saturating_percentage (F.fin q) = F.fin 0 := by
  have hc1 : ¬ (F.flt (F.fin 100) (F.fin q) = true) := by
    simp only [F.flt, decide_eq_true_eq]
    intro hgt
    linarith
  have hc2 : F.flt (F.fin q) (F.fin 0) = true := by
    simp only [F.flt, decide_eq_true_eq]
    exact h
  unfold Duty.from_saturating_percentage Duty.from_percentage
  rw [if_neg hc1, if_pos hc2]

/-- Formatting 45 degrees with one fractional digit gives `"45.0"`. -/
theorem fmtFixed1_45 : fmtFixed1 45 = "45.0" := by
  have hr : round ((45 : ℚ) * 10) = 450 := by norm_num [round_eq]
  simp only [fmtFixed1, hr]
  rw [if_neg (by decide)]
  decide

/-- Decoding the test block yields cpu temperature 45 °C. -/
theorem decode_testBlock45 : (Registers.decode testBlock45).cpu_temp = F.fin 45 := by
  show Temperature.from_degrees_celsius (testBlock45 ⟨7, by decide⟩) = F.fin 45
  unfold testBlock45 Temperature.from_degrees_celsius
  norm_num

/-! ## The claims -/

/-- C4: for every pair of raw bytes, the decoded fan speed is
`floor (2156220 / period)` RPM for positive `period = (hi << 8) | lo` and
0 RPM for a zero period; in particular bytes (0,0) give 0 RPM and period
2156 (hi = 8, lo = 108) gives exactly 1000 RPM. -/
theorem C4_speed_formula (lo hi : ℕ) (hlo : lo ≤ 255) (hhi : hi ≤ 255) :
    Speed.from_raw_ec_bytes lo hi
        = (if 0 < 256 * hi + lo then 2156220 / (256 * hi + lo) else 0)
      ∧ Speed.from_raw_ec_bytes 0 0 = 0
      ∧ Speed.from_raw_ec_bytes 108 8 = 1000 := by
  refine ⟨?_, by decide, by decide⟩
  have hsh : hi <<< 8 + lo = 256 * hi + lo := by
    rw [Nat.shiftLeft_eq]
    ring
  simp only [Speed.from_raw_ec_bytes, hsh]
  split_ifs with h
  · rfl
  · omega

/-- Witness for C4 at the concrete bytes lo = 108, hi = 8. -/
theorem C4_speed_formula_witness :
    Speed.from_raw_ec_bytes 108 8
        = (if 0 < 256 * 8 + 108 then 2156220 / (256 * 8 + 108) else 0)
      ∧ Speed.from_raw_ec_bytes 0 0 = 0 := by
  have h := C4_speed_formula 108 8 (by decide) (by decide)
  exact ⟨h.1, h.2.1⟩

/-- C5: for every byte `b`, decoding `b` into a duty over the range 0..=255
and encoding it back (truncating) yields a byte within 1 of `b` (in this
exact-arithmetic model the round trip is in fact the identity, which
satisfies the claimed bound). -/
theorem C5_duty_quantization (b : ℕ) (hb : b ≤ 255) :
    (Duty.from_point_in_range b 0 255).to_point_in_range 0 255 ≤ b + 1
      ∧ b ≤ (Duty.from_point_in_range b 0 255).to_point_in_range 0 255 + 1 := by
  have hdec : Duty.from_point_in_range b 0 255 = F.fin ((b : ℚ) / 255) := by
    simp only [Duty.from_point_in_range, F.sub, F.div, Nat.cast_zero, Nat.cast_ofNat, sub_zero]
    rw [if_neg (by norm_num)]
  have henc : (Duty.from_point_in_range b 0 255).to_point_in_range 0 255 = b := by
    rw [hdec]
    simp only [Duty.to_point_in_range, F.sub, F.mul, F.add, Nat.cast_zero, Nat.cast_ofNat,
      sub_zero, add_zero]
    rw [show (b : ℚ) / 255 * 255 = (b : ℚ) from div_mul_cancel₀ _ (by norm_num)]
    exact toU8_natCast b hb
  omega

/-- Witness for C5 at the concrete byte 200. -/
theorem C5_duty_quantization_witness :
    (Duty.from_point_in_range 200 0 255).to_point_in_range 0 255 ≤ 200 + 1
      ∧ 200 ≤ (Duty.from_point_in_range 200 0 255).to_point_in_range 0 255 + 1 :=
  C5_duty_quantization 200 (by decide)

/-- C8 counterexample: on the block whose byte 0x07 is 45, the temperature
displays as `"45.0°C"` (the format always prints one fractional digit), not
as `"45"` followed by the unit suffix as the claim states. -/
theorem C8_display_counterexample :
    Temperature.display (Registers.decode testBlock45).cpu_temp false = "45.0°C"
      ∧ "45.0°C" ≠ "45" ++ "°C" := by
  constructor
  · rw [decode_testBlock45]
    show fmtFixed1 45 ++ "°C" = "45.0°C"
    rw [fmtFixed1_45]
    decide
  · decide

/-- C8 amended: decoding a raw block whose byte at offset 0x07 is 45 yields
a cpu temperature displayed as exactly `"45.0"` (one fractional digit) with
the `"°C"` unit suffix appended in normal mode, and as the bare `"45.0"`
when units are suppressed via alternate formatting. -/
theorem C8_display_decoded_temperature :
    Temperature.display (Registers.decode testBlock45).cpu_temp false = "45.0°C"
      ∧ Temperature.display (Registers.decode testBlock45).cpu_temp true = "45.0" := by
  rw [decode_testBlock45]
  constructor
  · show fmtFixed1 45 ++ "°C" = "45.0°C"
    rw [fmtFixed1_45]
    decide
  · show fmtFixed1 45 ++ "" = "45.0"
    rw [fmtFixed1_45]
    decide

/-- C9: `Duty::from_percentage` rejects exactly the floats comparing above
100 (`TooBig`) and exactly those comparing below 0 (`Negative`); every
other float — NaN included, since NaN comparisons are false — is accepted,
NaN producing a duty whose ratio is NaN, which fails both bounds of the
documented `[0, 1]` range; `from_saturating_percentage` passes NaN through
unclamped. -/
theorem C9_from_percentage_nan (p : F) :
    (Duty.from_percentage p = .error ParsePercentageError.TooBig
        ↔ F.flt (F.fin 100) p = true)
      ∧ (Duty.from_percentage p = .error ParsePercentageError.Negative
        ↔ F.flt p (F.fin 0) = true)
      ∧ (F.flt (F.fin 100) p = false → F.flt p (F.fin 0) = false →
          Duty.from_percentage p = .ok (F.div p (F.fin 100)))
      ∧ Duty.from_percentage F.nan = .ok F.nan
      ∧ Duty.from_saturating_percentage F.nan = F.nan
      ∧ F.fle (F.fin 0) F.nan = false
      ∧ F.fle F.nan (F.fin 1) = false := by
  refine ⟨?_, ?_, ?_, rfl, rfl, rfl, rfl⟩
  · unfold Duty.from_percentage
    split_ifs with h1 h2
    · simp [h1]
    · simp [h1, h2]
    · simp [h1]
  · unfold Duty.from_percentage
    split_ifs with h1 h2
    · constructor
      · intro hc
        cases hc
      · intro hc
        rcases p with q | _
        · simp only [F.flt, decide_eq_true_eq] at h1 hc
          linarith
        · simp [F.flt] at hc
    · simp [h2]
    · simp [h2]
  · intro h1 h2
    unfold Duty.from_percentage
    rw [if_neg (by rw [h1]; exact fun hc => nomatch hc),
      if_neg (by rw [h2]; exact fun hc => nomatch hc)]

/-- Witness for C9 at the concrete input NaN. -/
theorem C9_from_percentage_nan_witness :
    Duty.from_percentage F.nan = .ok F.nan
      ∧ Duty.from_saturating_percentage F.nan = F.nan :=
  ⟨(C9_from_percentage_nan F.nan).2.2.2.1, (C9_from_percentage_nan F.nan).2.2.2.2.1⟩

/-- C7 counterexample: the claim's formula `duty = offset + slope * temp_celsius`
disagrees with the code at the fractional temperature 50.5 °C (slope 1,
offset 0): the code first truncates the temperature to the byte 50 and
yields ratio 1/2, while the claimed formula yields ratio 101/200. -/
theorem C7_linear_policy_counterexample :
    Linear.next_fan_duty (F.fin 1) (F.fin 0) (F.fin (101 / 2)) = F.fin (1 / 2)
      ∧ Linear.specDuty (F.fin 1) (F.fin 0) (F.fin (101 / 2)) = F.fin (101 / 200)
      ∧ Linear.next_fan_duty (F.fin 1) (F.fin 0) (F.fin (101 / 2))
          ≠ Linear.specDuty (F.fin 1) (F.fin 0) (F.fin (101 / 2)) := by
  have hto : F.toU8 (F.fin (101 / 2)) = 50 := by
    show (if (101 / 2 : ℚ) < 0 then 0 else min 255 (Int.toNat ⌊(101 / 2 : ℚ)⌋)) = 50
    norm_num
    decide
  have hnext : Linear.next_fan_duty (F.fin 1) (F.fin 0) (F.fin (101 / 2)) = F.fin (1 / 2) := by
    show Duty.from_saturating_percentage
        (F.fin (0 + (F.toU8 (F.fin (101 / 2)) : ℚ) * 1)) = F.fin (1 / 2)
    rw [hto]
    rw [show (0 + ((50 : ℕ) : ℚ) * 1) = (50 : ℚ) from by norm_num]
    rw [from_saturating_val 50 (by norm_num) (by norm_num)]
    norm_num
  have hspec : Linear.specDuty (F.fin 1) (F.fin 0) (F.fin (101 / 2)) = F.fin (101 / 200) := by
    show Duty.from_saturating_percentage (F.fin (0 + 101 / 2 * 1)) = F.fin (101 / 200)
    rw [show ((0 : ℚ) + 101 / 2 * 1) = (101 / 2 : ℚ) from by norm_num]
    rw [from_saturating_val (101 / 2) (by norm_num) (by norm_num)]
    norm_num
  refine ⟨hnext, hspec, ?_⟩
  rw [hnext, hspec]
  intro hc
  have hq := F.fin.inj hc
  norm_num at hq

/-- C7 amended: the linear policy is a pure function of the temperature
computing `duty = offset + slope * byte(temp)` as a percentage, where
`byte` is the Rust saturating/truncating `f64 -> u8` cast applied to the
temperature first; the result saturates into the [0,1] duty range rather
than failing, and with slope 1 and offset 0 a temperature of 50 °C yields
50% duty, 150 °C saturates to 100%, and -50 °C saturates to 0%. -/
theorem C7_linear_policy (slope offset : ℚ) (t : F) :
    Linear.next_fan_duty (F.fin slope) (F.fin offset) t
        = Duty.from_saturating_percentage
            (F.fin (offset + (Temperature.as_degrees_celsius t : ℚ) * slope))
      ∧ (∃ r : ℚ, Linear.next_fan_duty (F.fin slope) (F.fin offset) t = F.fin r
          ∧ 0 ≤ r ∧ r ≤ 1)
      ∧ Linear.next_fan_duty (F.fin 1) (F.fin 0) (F.fin 50) = F.fin (1 / 2)
      ∧ Linear.next_fan_duty (F.fin 1) (F.fin 0) (F.fin 150) = F.fin 1
      ∧ Linear.next_fan_duty (F.fin 1) (F.fin 0) (F.fin (-50)) = F.fin 0 := by
  refine ⟨rfl, ?_, ?_, ?_, ?_⟩
  · show ∃ r : ℚ, Duty.from_saturating_percentage
        (F.fin (offset + (F.toU8 t : ℚ) * slope)) = F.fin r ∧ 0 ≤ r ∧ r ≤ 1
    exact from_saturating_percentage_bounds _
  · have hto : F.toU8 (F.fin 50) = 50 := by
      show (if (50 : ℚ) < 0 then 0 else min 255 (Int.toNat ⌊(50 : ℚ)⌋)) = 50
      norm_num
      decide
    show Duty.from_saturating_percentage
        (F.fin (0 + (F.toU8 (F.fin 50) : ℚ) * 1)) = F.fin (1 / 2)
    rw [hto, show (0 + ((50 : ℕ) : ℚ) * 1) = (50 : ℚ) from by norm_num]
    rw [from_saturating_val 50 (by norm_num) (by norm_num)]
    norm_num
  · have hto : F.toU8 (F.fin 150) = 150 := by
      show (if (150 : ℚ) < 0 then 0 else min 255 (Int.toNat ⌊(150 : ℚ)⌋)) = 150
      norm_num
      decide
    show Duty.from_saturating_percentage
        (F.fin (0 + (F.toU8 (F.fin 150) : ℚ) * 1)) = F.fin 1
    rw [hto, show (0 + ((150 : ℕ) : ℚ) * 1) = (150 : ℚ) from by norm_num]
    exact from_saturating_high 150 (by norm_num)
  · have hto : F.toU8 (F.fin (-50)) = 0 := by
      show (if (-50 : ℚ) < 0 then 0 else min 255 (Int.toNat ⌊(-50 : ℚ)⌋)) = 0
      norm_num
    show Duty.from_saturating_percentage
        (F.fin (0 + (F.toU8 (F.fin (-50)) : ℚ) * 1)) = F.fin 0
    rw [hto, show (0 + ((0 : ℕ) : ℚ) * 1) = (0 : ℚ) from by norm_num]
    rw [from_saturating_val 0 (by norm_num) (by norm_num)]
    norm_num

/-- C3: `ECPort::wait` inspects at most 100 polled bytes (1 ms apart),
returns Ok exactly when one of the 100 polled bytes has the selected bit
equal to the expected value, returns the timeout error exactly when none
does, and its outcome depends on nothing beyond the first 100 reads. -/
theorem C3_wait_bounded_poll (reads : ℕ → ℕ) (flag value : ℕ) :
    (ECPort.wait reads flag value = .ok ()
        ↔ ∃ i < 100, ECPort.bitOf (reads i) flag = value)
      ∧ (ECPort.wait reads flag value = .error PortIOError.mk
        ↔ ∀ i < 100, ECPort.bitOf (reads i) flag ≠ value)
      ∧ ECPort.readsPerformed reads flag value ≤ 100
      ∧ ECPort.MAX_QUERIES = 100
      ∧ ECPort.QUERY_INTERVAL_MICROS = 1000
      ∧ (∀ reads' : ℕ → ℕ, (∀ i < 100, reads i = reads' i) →
          ECPort.wait reads flag value = ECPort.wait reads' flag value) := by
  have hkey : ∀ rds : ℕ → ℕ,
      (((List.range ECPort.MAX_QUERIES).map rds).dropWhile
          (fun data => ECPort.bitOf data flag != value)) = []
        ↔ ∀ i < 100, ECPort.bitOf (rds i) flag ≠ value := by
    intro rds
    rw [List.dropWhile_eq_nil_iff]
    constructor
    · intro h i hi
      have := h (rds i) (List.mem_map_of_mem rds (List.mem_range.mpr hi))
      simpa using this
    · intro h x hx
      rcases List.mem_map.mp hx with ⟨i, hi, rfl⟩
      simpa using h i (List.mem_range.mp hi)
  refine ⟨?_, ?_, ?_, rfl, rfl, ?_⟩
  · simp only [ECPort.wait, List.isEmpty_iff]
    split_ifs with h
    · constructor
      · intro hc
        exact absurd hc (by simp)
      · rintro ⟨i, hi, hv⟩
        exact absurd hv ((hkey reads).mp h i hi)
    · constructor
      · intro _
        by_contra hno
        push_neg at hno
        exact h ((hkey reads).mpr hno)
      · intro _
        rfl
  · simp only [ECPort.wait, List.isEmpty_iff]
    split_ifs with h
    · constructor
      · intro _
        exact (hkey reads).mp h
      · intro _
        rfl
    · constructor
      · intro hc
        exact absurd hc (by simp)
      · intro hall
        exact absurd ((hkey reads).mpr hall) h
  · simp only [ECPort.readsPerformed]
    exact min_le_left _ _
  · intro reads' hag
    have hmaps : (List.range ECPort.MAX_QUERIES).map reads
        = (List.range ECPort.MAX_QUERIES).map reads' := by
      apply List.map_congr_left
      intro i hi
      exact hag i (by simpa [ECPort.MAX_QUERIES] using List.mem_range.mp hi)
    unfold ECPort.wait
    rw [hmaps]

/-- Witness for C3 at a concrete stream whose first sample already matches
(bit 1 of the byte 2 equals 1). -/
theorem C3_wait_bounded_poll_witness :
    ECPort.wait (fun _ => 2) 1 1 = .ok ()
      ∧ ECPort.readsPerformed (fun _ => 2) 1 1 ≤ 100 := by
  have h := C3_wait_bounded_poll (fun _ => 2) 1 1
  exact ⟨h.1.mpr ⟨0, by decide, by decide⟩, h.2.2.1⟩

/-- C2: `Control::write` performs the strict 4-wait handshake — wait, write
the command byte to the status/command port, wait, write the register
address to the data port, wait, write the value to the data port, wait once
more; it succeeds exactly when all four waits succeed, and a timeout in any
wait aborts the sequence with an error right there, leaving exactly the
port writes already performed (partial writes possible, no rollback). -/
theorem C2_register_write_handshake (scReads : ℕ → ℕ → ℕ) (cmd port value : ℕ) :
    ((Control.write scReads cmd port value).result = .ok ()
        ↔ (ECPort.wait (scReads 0) IBF 0 = .ok () ∧ ECPort.wait (scReads 1) IBF 0 = .ok ()
            ∧ ECPort.wait (scReads 2) IBF 0 = .ok () ∧ ECPort.wait (scReads 3) IBF 0 = .ok ()))
      ∧ ((Control.write scReads cmd port value).result = .ok () →
          (Control.write scReads cmd port value).writes
            = [(ECPortId.sc, cmd), (ECPortId.data, port), (ECPortId.data, value)])
      ∧ (ECPort.wait (scReads 0) IBF 0 ≠ .ok () →
          (Control.write scReads cmd port value).writes = []
            ∧ (Control.write scReads cmd port value).result ≠ .ok ())
      ∧ (ECPort.wait (scReads 0) IBF 0 = .ok () → ECPort.wait (scReads 1) IBF 0 ≠ .ok () →
          (Control.write scReads cmd port value).writes = [(ECPortId.sc, cmd)]
            ∧ (Control.write scReads cmd port value).result ≠ .ok ())
      ∧ (ECPort.wait (scReads 0) IBF 0 = .ok () → ECPort.wait (scReads 1) IBF 0 = .ok () →
          ECPort.wait (scReads 2) IBF 0 ≠ .ok () →
          (Control.write scReads cmd port value).writes
              = [(ECPortId.sc, cmd), (ECPortId.data, port)]
            ∧ (Control.write scReads cmd port value).result ≠ .ok ())
      ∧ (ECPort.wait (scReads 0) IBF 0 = .ok () → ECPort.wait (scReads 1) IBF 0 = .ok () →
          ECPort.wait (scReads 2) IBF 0 = .ok () → ECPort.wait (scReads 3) IBF 0 ≠ .ok () →
          (Control.write scReads cmd port value).writes
              = [(ECPortId.sc, cmd), (ECPortId.data, port), (ECPortId.data, value)]
            ∧ (Control.write scReads cmd port value).result ≠ .ok ()) := by
  have hcases : ∀ e : Except PortIOError Unit, e = .ok () ∨ e = .error PortIOError.mk := by
    intro e
    rcases e with e | u
    · cases e
      exact Or.inr rfl
    · cases u
      exact Or.inl rfl
  rcases hcases (ECPort.wait (scReads 0) IBF 0) with h0 | h0 <;>
    rcases hcases (ECPort.wait (scReads 1) IBF 0) with h1 | h1 <;>
      rcases hcases (ECPort.wait (scReads 2) IBF 0) with h2 | h2 <;>
        rcases hcases (ECPort.wait (scReads 3) IBF 0) with h3 | h3 <;>
          simp [Control.write, h0, h1, h2, h3]

/-- Witness for C2: with a status port that always reads 0 (input buffer
empty) the full three-write sequence is performed. -/
theorem C2_register_write_handshake_witness :
    (Control.write (fun _ _ => 0) 0x99 0x1 200).writes
        = [(ECPortId.sc, 0x99), (ECPortId.data, 0x1), (ECPortId.data, 200)] := by
  have h := C2_register_write_handshake (fun _ _ => 0) 0x99 0x1 200
  exact h.2.1 rfl

/-- C1: the control loop contains every per-cycle error — a failed
telemetry read makes that cycle's sample `Temperature::max()` (a successful
read yields the decoded cpu temperature), a failed duty write only skips
that cycle's write, and the duties of all cycles are unaffected by write
failures (the loop proceeds; every cycle's outcome is a total function of
the cycle index, so no such error terminates it). -/
theorem C1_loop_error_containment (policy : Temperature → Duty)
    (normalize : (ℕ → Temperature) → ℕ → Temperature) (envs : ℕ → CycleEnv) (n : ℕ) :
    ((envs n).readResult = none → AutoLoop.tempSample envs n = Temperature.max)
      ∧ (∀ buf, (envs n).readResult = some buf →
          AutoLoop.tempSample envs n = (Registers.decode buf).cpu_temp)
      ∧ ((envs n).writeOk = false → AutoLoop.appliedAt policy normalize envs n = none)
      ∧ ((envs n).writeOk = true →
          AutoLoop.appliedAt policy normalize envs n
            = some (AutoLoop.dutyAt policy normalize envs n))
      ∧ (∀ envs' : ℕ → CycleEnv, (∀ k, (envs' k).readResult = (envs k).readResult) →
          AutoLoop.dutyAt policy normalize envs' n = AutoLoop.dutyAt policy normalize envs n) := by
  refine ⟨?_, ?_, ?_, ?_, ?_⟩
  · intro h
    unfold AutoLoop.tempSample
    rw [h]
  · intro buf h
    unfold AutoLoop.tempSample
    rw [h]
  · intro h
    unfold AutoLoop.appliedAt
    rw [h]
    simp
  · intro h
    unfold AutoLoop.appliedAt
    rw [h]
    simp
  · intro envs2 hag
    unfold AutoLoop.dutyAt
    have hts : AutoLoop.tempSample envs2 = AutoLoop.tempSample envs := by
      funext k
      unfold AutoLoop.tempSample
      rw [hag k]
    rw [hts]

/-- Witness for C1 at an environment whose cycle 0 fails both the read and
the write. -/
theorem C1_loop_error_containment_witness :
    AutoLoop.tempSample (fun _ => ⟨none, false⟩) 0 = Temperature.max
      ∧ AutoLoop.appliedAt (fun t => t) (fun s => s) (fun _ => ⟨none, false⟩) 0 = none := by
  have h := C1_loop_error_containment (fun t => t) (fun s => s) (fun _ => ⟨none, false⟩) 0
  exact ⟨h.1 rfl, h.2.2.1 rfl⟩

/-- C6: for every input stream and window size at least 1, the moving
median emits one output per input — the element at index `len / 2` of the
ascending sort of the current window, which holds the most recent
`min (i+1, w)` samples — and every output is a value drawn from the current
window. -/
theorem C6_moving_median (w : ℕ) (stream : ℕ → ℚ) (n : ℕ) (hw : 1 ≤ w) :
    (windowList w stream n).length = min (n + 1) w
      ∧ (MovingMedian.run (· ≤ ·) w stream n).2
          = (List.insertionSort (· ≤ ·) (windowList w stream n))[(List.insertionSort (· ≤ ·) (windowList w stream n)).length / 2]?
      ∧ List.Sorted (· ≤ ·) (List.insertionSort (· ≤ ·) (windowList w stream n))
      ∧ ∃ x, (MovingMedian.run (· ≤ ·) w stream n).2 = some x ∧ x ∈ windowList w stream n := by
  refine ⟨windowList_length w stream n, MovingMedian.median_run_snd _ _ _ _,
    List.sorted_insertionSort _ _, ?_⟩
  have hidx : (List.insertionSort (· ≤ ·) (windowList w stream n)).length / 2
      < (List.insertionSort (· ≤ ·) (windowList w stream n)).length := by
    apply Nat.div_lt_self _ one_lt_two
    rw [List.length_insertionSort, windowList_length]
    omega
  rw [MovingMedian.median_run_snd, List.getElem?_eq_getElem hidx]
  exact ⟨_, rfl, (List.perm_insertionSort _ _).subset (List.getElem_mem hidx)⟩

/-- Witness for C6 with window size 2 over the stream 0, 1, 2, ... at the
second sample. -/
theorem C6_moving_median_witness :
    (windowList 2 (fun k => (k : ℚ)) 1).length = min 2 2
      ∧ ∃ x, (MovingMedian.run (· ≤ ·) 2 (fun k => (k : ℚ)) 1).2 = some x
          ∧ x ∈ windowList 2 (fun k => (k : ℚ)) 1 := by
  have h := C6_moving_median 2 (fun k => (k : ℚ)) 1 (by norm_num)
  exact ⟨h.1, h.2.2.2⟩

/-- C10: with window size at least 1 the moving median never panics (the
removal index is always in bounds of the non-empty window) and the moving
average of finite samples never divides by zero (its output stays finite);
with window size 0 the pushed sample is immediately evicted, so the moving
median panics on its first input and the moving average emits the empty
sum divided by zero — NaN — on every input. -/
theorem C10_filter_window_safety :
    (∀ (stream : ℕ → F) (w n : ℕ), 1 ≤ w →
        ((MovingMedian.run medianR w stream n).2).isSome = true)
      ∧ (∀ (qs : ℕ → ℚ) (w n : ℕ), 1 ≤ w → ∃ q : ℚ,
          (MovingAverage.run w (fun k => F.fin (qs k)) n).2 = F.fin q)
      ∧ (∀ stream : ℕ → F, (MovingMedian.run medianR 0 stream 0).2 = none)
      ∧ (∀ (stream : ℕ → F) (n : ℕ), (MovingAverage.run 0 stream n).2 = F.nan) := by
  refine ⟨?_, ?_, ?_, ?_⟩
  · intro stream w n hw
    have hidx : (List.insertionSort medianR (windowList w stream n)).length / 2
        < (List.insertionSort medianR (windowList w stream n)).length := by
      apply Nat.div_lt_self _ one_lt_two
      rw [List.length_insertionSort, windowList_length]
      omega
    rw [MovingMedian.median_run_snd, List.getElem?_eq_getElem hidx]
    rfl
  · intro qs w n hw
    rw [MovingAverage.average_run_snd, windowList_map, sumTemps_map_fin, List.length_map]
    have hne : (((windowList w qs n).length : ℕ) : ℚ) ≠ 0 := by
      rw [windowList_length]
      exact Nat.cast_ne_zero.mpr (by omega)
    refine ⟨(windowList w qs n).foldl (· + ·) 0 / ((windowList w qs n).length : ℚ), ?_⟩
    show (if (((windowList w qs n).length : ℕ) : ℚ) = 0 then F.nan
        else F.fin ((windowList w qs n).foldl (· + ·) 0 / ((windowList w qs n).length : ℚ))) = _
    rw [if_neg hne]
  · intro stream
    rw [MovingMedian.median_run_snd]
    have h0 : windowList 0 stream 0 = [] := rfl
    rw [h0]
    rfl
  · intro stream n
    rw [MovingAverage.average_run_snd]
    have h0 : windowList 0 stream n = [] := by
      unfold windowList
      apply List.drop_eq_nil_of_le
      simp
    rw [h0]
    simp [sumTemps, F.div]

/-- Witness for C10: a one-sample window of a NaN stream still emits an
output, and a zero-size moving-average window emits NaN. -/
theorem C10_filter_window_safety_witness :
    ((MovingMedian.run medianR 1 (fun _ => F.nan) 0).2).isSome = true
      ∧ (MovingAverage.run 0 (fun _ => F.fin 5) 2).2 = F.nan :=
  ⟨C10_filter_window_safety.1 (fun _ => F.nan) 1 0 (by norm_num),
   C10_filter_window_safety.2.2.2 (fun _ => F.fin 5) 2⟩

end ClevoFan
